import Mathlib

/-
  Verification development for the jx_logger repository.

  The repository ships example scripts (src/examples, src/test_loggg.py)
  that exercise the jx_logger engine; the engine's own source is not part
  of the repository, so the engine's components (Level Registry, Masking
  Engine, Context Stack, Performance Monitor, Dispatcher, Logger Facade)
  are modelled here from the specification's words, and the properties the
  examples rely on are proved against that model.
-/

namespace JxLogger

/-- Modelled from the spec: the Level Registry's seven registered
severities (the jx_logger engine source is missing from the repository);
"Levels are fixed at seven: trace, debug, info, success, warning, error,
critical". -/
inductive Level where
  | trace
  | debug
  | info
  | success
  | warning
  | error
  | critical
deriving DecidableEq, Repr

/-- Modelled from the spec: the integer rank of each level, totally
ordered trace < debug < info < success < warning < error < critical. -/
def Level.rank : Level → Nat
  | .trace => 0
  | .debug => 1
  | .info => 2
  | .success => 3
  | .warning => 4
  | .error => 5
  | .critical => 6

/-- Modelled from the spec: `threshold_admits(level, threshold)` is
`rank(level) >= rank(threshold)`. -/
def threshold_admits (level threshold : Level) : Bool :=
  decide (threshold.rank ≤ level.rank)

/-- Modelled from the spec: the list of all registered levels, in rank
order. -/
def allLevels : List Level :=
  [.trace, .debug, .info, .success, .warning, .error, .critical]

/-- Modelled from the spec: a per-level emission call of the Logger
Facade checks `threshold_admits`; if not admitted it returns immediately
without forwarding anything, otherwise it forwards the record to the
Dispatcher.  `dispatched` is the Dispatcher-side trace of forwarded
(level, message) records. -/
def logCall (threshold level : Level) (msg : String)
    (dispatched : List (Level × String)) : List (Level × String) :=
  if threshold_admits level threshold then dispatched ++ [(level, msg)]
  else dispatched

end JxLogger

/-- C1: for every configured threshold T and level L among the seven
registered levels, a per-level emission call at level L forwards a record
to the Dispatcher iff rank(L) >= rank(T); the ranks are totally ordered
trace < debug < info < success < warning < error < critical; and with
threshold = warning, trace/debug/info/success are suppressed while
warning/error/critical are forwarded. -/
theorem JxLogger.level_threshold_filtering (T L : JxLogger.Level) (m : String)
    (d : List (JxLogger.Level × String)) :
    (JxLogger.logCall T L m d = d ++ [(L, m)] ↔ T.rank ≤ L.rank) ∧
    (JxLogger.logCall T L m d = d ↔ ¬ T.rank ≤ L.rank) ∧
    (JxLogger.Level.trace.rank < JxLogger.Level.debug.rank ∧
     JxLogger.Level.debug.rank < JxLogger.Level.info.rank ∧
     JxLogger.Level.info.rank < JxLogger.Level.success.rank ∧
     JxLogger.Level.success.rank < JxLogger.Level.warning.rank ∧
     JxLogger.Level.warning.rank < JxLogger.Level.error.rank ∧
     JxLogger.Level.error.rank < JxLogger.Level.critical.rank) ∧
    (∀ L' : JxLogger.Level, ∀ m' : String, ∀ d' : List (JxLogger.Level × String),
      (JxLogger.logCall .warning L' m' d' = d' ++ [(L', m')] ↔
        (L' = .warning ∨ L' = .error ∨ L' = .critical)) ∧
      (JxLogger.logCall .warning L' m' d' = d' ↔
        (L' = .trace ∨ L' = .debug ∨ L' = .info ∨ L' = .success))) := by
  refine ⟨?_, ?_, by decide, ?_⟩
  · by_cases h : T.rank ≤ L.rank <;> simp [JxLogger.logCall, JxLogger.threshold_admits, h]
  · by_cases h : T.rank ≤ L.rank <;> simp [JxLogger.logCall, JxLogger.threshold_admits, h]
  · intro L' m' d'
    cases L' <;>
      simp [JxLogger.logCall, JxLogger.threshold_admits, JxLogger.Level.rank]

namespace JxLogger

/-- Modelled from the spec: the closed tagged-variant value type of a
Record's extra structured fields: string, number, bool, nested mapping,
sequence; `blob` stands for a value whose type cannot be introspected by
the Masking Engine (spec section 4.3: left as-is, record annotated as
partially masked). -/
inductive Value where
  | str (s : String)
  | num (n : Int)
  | bool (b : Bool)
  | map (entries : List (String × Value))
  | seq (items : List Value)
  | blob (tag : String)

/-- Modelled from the spec: the Masking Engine's default sensitive-key
set: password, secret, token, api_key, credential. -/
def defaultSensitiveKeys : List String :=
  ["password", "secret", "token", "api_key", "credential"]

/-- Modelled from the spec: Masking Engine configuration: configurable
additions to the sensitive-key set and a configured sensitive-value
pattern (e.g. a recognizable key-prefix pattern). -/
structure MaskConfig where
  extraKeys : List String
  valuePattern : String → Bool

/-- Modelled from the spec: case-insensitive key normalization: every
character of the key name is lowered. -/
def normalizeKey (k : String) : String := String.mk (k.data.map Char.toLower)

/-- Modelled from the spec: whether a normalized key name matches the
sensitive-key set; the examples mark `password_hash` and `api_token` as
masked, so a key matches when a sensitive name occurs inside its
normalized form. -/
def sensitiveKey (cfg : MaskConfig) (k : String) : Bool :=
  (defaultSensitiveKeys ++ cfg.extraKeys).any
    (fun s => decide (s.data <:+: (normalizeKey k).data))

/-- Modelled from the spec: whether a value matches the configured
sensitive-value pattern (the pattern applies to string values). -/
def sensitiveValue (cfg : MaskConfig) : Value → Bool
  | .str s => cfg.valuePattern s
  | _ => false

/-- Modelled from the spec: the fixed redaction token substituted for a
sensitive value. -/
def redactionToken : String := "***REDACTED***"

mutual

/-- Modelled from the spec: the Masking Engine's recursive traversal over
a value: mappings and sequences are descended into, scalars and
non-introspectable values pass through. -/
def maskValue (cfg : MaskConfig) : Value → Value
  | .map es => .map (maskEntries cfg es)
  | .seq items => .seq (maskItems cfg items)
  | .str s => .str s
  | .num n => .num n
  | .bool b => .bool b
  | .blob t => .blob t
termination_by structural v => v

/-- Modelled from the spec: masking of the entries of a mapping: an entry
whose key matches the sensitive-key set or whose value matches the
sensitive-value pattern has its value replaced by the redaction token,
the key staying present; other entries are descended into. -/
def maskEntries (cfg : MaskConfig) : List (String × Value) → List (String × Value)
  | [] => []
  | (k, v) :: rest =>
    (if sensitiveKey cfg k || sensitiveValue cfg v then (k, .str redactionToken)
     else (k, maskValue cfg v)) :: maskEntries cfg rest
termination_by structural es => es

/-- Modelled from the spec: masking of the items of a sequence. -/
def maskItems (cfg : MaskConfig) : List Value → List Value
  | [] => []
  | v :: rest => maskValue cfg v :: maskItems cfg rest
termination_by structural items => items

end

/-- Membership of a mapping entry (key, value) at any nesting depth of a
value, through nested mappings and sequences. -/
inductive EntryIn : Value → String → Value → Prop where
  | here {es : List (String × Value)} {k : String} {v : Value} :
      (k, v) ∈ es → EntryIn (.map es) k v
  | inMap {es : List (String × Value)} {k' : String} {v' : Value}
      {k : String} {v : Value} :
      (k', v') ∈ es → EntryIn v' k v → EntryIn (.map es) k v
  | inSeq {items : List Value} {v' : Value} {k : String} {v : Value} :
      v' ∈ items → EntryIn v' k v → EntryIn (.seq items) k v

mutual

/-- A value none of whose entries, at any nesting depth, matches the
sensitive-key set or the sensitive-value pattern. -/
def cleanValue (cfg : MaskConfig) : Value → Bool
  | .map es => cleanEntries cfg es
  | .seq items => cleanItems cfg items
  | _ => true
termination_by structural v => v

/-- Entry list with no sensitive entry at any depth. -/
def cleanEntries (cfg : MaskConfig) : List (String × Value) → Bool
  | [] => true
  | (k, v) :: rest =>
    !(sensitiveKey cfg k || sensitiveValue cfg v) && cleanValue cfg v
      && cleanEntries cfg rest
termination_by structural es => es

/-- Item list with no sensitive entry at any depth. -/
def cleanItems (cfg : MaskConfig) : List Value → Bool
  | [] => true
  | v :: rest => cleanValue cfg v && cleanItems cfg rest
termination_by structural items => items

end

mutual

/-- Whether the string `s` occurs as a substring of some string value at
any nesting depth of a value (what could reach a sink through a string
payload). -/
def mentions (s : String) : Value → Bool
  | .str t => decide (s.data <:+: t.data)
  | .map es => mentionsEntries s es
  | .seq items => mentionsItems s items
  | _ => false
termination_by structural v => v

/-- Occurrence of `s` among the entry values of a mapping. -/
def mentionsEntries (s : String) : List (String × Value) → Bool
  | [] => false
  | (_, v) :: rest => mentions s v || mentionsEntries s rest
termination_by structural es => es

/-- Occurrence of `s` among the items of a sequence. -/
def mentionsItems (s : String) : List Value → Bool
  | [] => false
  | v :: rest => mentions s v || mentionsItems s rest
termination_by structural items => items

end

end JxLogger

namespace JxLogger

theorem maskEntries_eq (cfg : MaskConfig) (es : List (String × Value)) :
    maskEntries cfg es = es.map (fun p =>
      if sensitiveKey cfg p.1 || sensitiveValue cfg p.2 then (p.1, Value.str redactionToken)
      else (p.1, maskValue cfg p.2)) := by
  induction es with
  | nil => rfl
  | cons p rest ih => cases p with
    | mk k v => simp only [maskEntries, ih, List.map_cons]

theorem maskItems_eq (cfg : MaskConfig) (items : List Value) :
    maskItems cfg items = items.map (maskValue cfg) := by
  induction items with
  | nil => rfl
  | cons v rest ih => simp only [maskItems, ih, List.map_cons]

theorem maskEntries_keys (cfg : MaskConfig) (es : List (String × Value)) :
    (maskEntries cfg es).map Prod.fst = es.map Prod.fst := by
  induction es with
  | nil => rfl
  | cons p rest ih => cases p with
    | mk k v =>
      by_cases h : (sensitiveKey cfg k || sensitiveValue cfg v) = true <;>
        simp [maskEntries, h, ih]

theorem entryIn_maskValue_redacted (cfg : MaskConfig) {w : Value} {k : String}
    {val : Value} (hin : EntryIn w k val) :
    ∀ v, w = maskValue cfg v → sensitiveKey cfg k = true → val = .str redactionToken := by
  induction hin with
  | here hmem =>
    intro v hw hk
    cases v with
    | map es =>
      simp only [maskValue, Value.map.injEq] at hw
      subst hw
      rw [maskEntries_eq, List.mem_map] at hmem
      obtain ⟨p, hpmem, hp⟩ := hmem
      split at hp
      · exact ((Prod.mk.injEq _ _ _ _).mp hp).2.symm
      · rename_i hc
        obtain ⟨hk1, _⟩ := (Prod.mk.injEq _ _ _ _).mp hp
        rw [hk1] at hc
        simp [hk] at hc
    | str s => simp only [maskValue] at hw; exact Value.noConfusion hw
    | num n => simp only [maskValue] at hw; exact Value.noConfusion hw
    | bool b => simp only [maskValue] at hw; exact Value.noConfusion hw
    | seq items => simp only [maskValue] at hw; exact Value.noConfusion hw
    | blob t => simp only [maskValue] at hw; exact Value.noConfusion hw
  | inMap hmem hsub ih =>
    intro v hw hk
    cases v with
    | map es =>
      simp only [maskValue, Value.map.injEq] at hw
      subst hw
      rw [maskEntries_eq, List.mem_map] at hmem
      obtain ⟨p, hpmem, hp⟩ := hmem
      split at hp
      · have hv' := ((Prod.mk.injEq _ _ _ _).mp hp).2
        rw [← hv'] at hsub
        cases hsub
      · have hv' := ((Prod.mk.injEq _ _ _ _).mp hp).2
        exact ih p.2 hv'.symm hk
    | str s => simp only [maskValue] at hw; exact Value.noConfusion hw
    | num n => simp only [maskValue] at hw; exact Value.noConfusion hw
    | bool b => simp only [maskValue] at hw; exact Value.noConfusion hw
    | seq items => simp only [maskValue] at hw; exact Value.noConfusion hw
    | blob t => simp only [maskValue] at hw; exact Value.noConfusion hw
  | inSeq hmem hsub ih =>
    intro v hw hk
    cases v with
    | seq items =>
      simp only [maskValue, Value.seq.injEq] at hw
      subst hw
      rw [maskItems_eq, List.mem_map] at hmem
      obtain ⟨u, humem, hu⟩ := hmem
      exact ih u hu.symm hk
    | str s => simp only [maskValue] at hw; exact Value.noConfusion hw
    | num n => simp only [maskValue] at hw; exact Value.noConfusion hw
    | bool b => simp only [maskValue] at hw; exact Value.noConfusion hw
    | map es => simp only [maskValue] at hw; exact Value.noConfusion hw
    | blob t => simp only [maskValue] at hw; exact Value.noConfusion hw

end JxLogger

namespace JxLogger

mutual

theorem maskValue_clean (cfg : MaskConfig) :
    ∀ v, cleanValue cfg v = true → maskValue cfg v = v
  | .str _, _ => rfl
  | .num _, _ => rfl
  | .bool _, _ => rfl
  | .blob _, _ => rfl
  | .map es, h => by
      have h' : cleanEntries cfg es = true := h
      simp only [maskValue]
      rw [maskEntries_clean cfg es h']
  | .seq items, h => by
      have h' : cleanItems cfg items = true := h
      simp only [maskValue]
      rw [maskItems_clean cfg items h']

theorem maskEntries_clean (cfg : MaskConfig) :
    ∀ es, cleanEntries cfg es = true → maskEntries cfg es = es
  | [], _ => rfl
  | (k, v) :: rest, h => by
      simp only [cleanEntries, Bool.and_eq_true, Bool.not_eq_true'] at h
      obtain ⟨⟨hs, hv⟩, hrest⟩ := h
      simp only [maskEntries, hs, if_neg]
      rw [maskValue_clean cfg v hv, maskEntries_clean cfg rest hrest]
      simp

theorem maskItems_clean (cfg : MaskConfig) :
    ∀ items, cleanItems cfg items = true → maskItems cfg items = items
  | [], _ => rfl
  | v :: rest, h => by
      simp only [cleanItems, Bool.and_eq_true] at h
      simp only [maskItems]
      rw [maskValue_clean cfg v h.1, maskItems_clean cfg rest h.2]

end

/-- Modelled from the spec and basic_usage.py: the extra mapping of the
sensitive-data-masking demonstration: username john_doe, password
secret123, api_key sk-1234567890. -/
def basicExtra : Value :=
  .map [("username", .str "john_doe"),
        ("password", .str "secret123"),
        ("api_key", .str "sk-1234567890")]

/-- Modelled from the spec: a masking configuration with no configured
additions and a key-prefix sensitive-value pattern. -/
def basicCfg : MaskConfig :=
  { extraKeys := [], valuePattern := fun s => "sk-".data.isPrefixOf s.data }

end JxLogger

/-- C2: for every extra-fields mapping and every key at any nesting depth
whose case-insensitively normalized name matches the sensitive-key set
(password, secret, token, api_key, credential, plus configured additions)
or whose value matches the configured sensitive-value pattern, the masked
record carries the fixed redaction token in place of the original value
while the key itself remains present; non-matching fields pass through
unchanged; and in the basic_usage example the substring secret123 occurs
in the original extra mapping but never in the masked one. -/
theorem JxLogger.masking_redacts_sensitive_fields (cfg : JxLogger.MaskConfig) :
    (∀ v : JxLogger.Value, ∀ k : String, ∀ val : JxLogger.Value,
      JxLogger.EntryIn (JxLogger.maskValue cfg v) k val →
      JxLogger.sensitiveKey cfg k = true → val = .str JxLogger.redactionToken) ∧
    (∀ es : List (String × JxLogger.Value), ∀ k : String, ∀ v' : JxLogger.Value,
      (k, v') ∈ es →
      (JxLogger.sensitiveKey cfg k || JxLogger.sensitiveValue cfg v') = true →
      (k, JxLogger.Value.str JxLogger.redactionToken) ∈ JxLogger.maskEntries cfg es) ∧
    (∀ es : List (String × JxLogger.Value),
      (JxLogger.maskEntries cfg es).map Prod.fst = es.map Prod.fst) ∧
    (∀ v : JxLogger.Value,
      JxLogger.cleanValue cfg v = true → JxLogger.maskValue cfg v = v) ∧
    (JxLogger.maskValue JxLogger.basicCfg JxLogger.basicExtra =
       .map [("username", .str "john_doe"),
             ("password", .str JxLogger.redactionToken),
             ("api_key", .str JxLogger.redactionToken)] ∧
     JxLogger.mentions "secret123" JxLogger.basicExtra = true ∧
     JxLogger.mentions "secret123"
       (JxLogger.maskValue JxLogger.basicCfg JxLogger.basicExtra) = false) := by
  refine ⟨?_, ?_, JxLogger.maskEntries_keys cfg, JxLogger.maskValue_clean cfg, ?_, ?_, ?_⟩
  · intro v k val hin hk
    exact JxLogger.entryIn_maskValue_redacted cfg hin v rfl hk
  · intro es k v' hmem hc
    rw [JxLogger.maskEntries_eq, List.mem_map]
    refine ⟨(k, v'), hmem, ?_⟩
    rw [if_pos hc]
  · simp +decide [JxLogger.maskValue, JxLogger.maskEntries, JxLogger.basicExtra,
      JxLogger.basicCfg, JxLogger.sensitiveKey, JxLogger.sensitiveValue,
      JxLogger.normalizeKey, JxLogger.defaultSensitiveKeys]
  · decide
  · simp +decide [JxLogger.maskValue, JxLogger.maskEntries, JxLogger.basicExtra,
      JxLogger.basicCfg, JxLogger.sensitiveKey, JxLogger.sensitiveValue,
      JxLogger.normalizeKey, JxLogger.defaultSensitiveKeys, JxLogger.mentions,
      JxLogger.mentionsEntries, JxLogger.redactionToken]

/-- Witness for C2: evaluation of the masking theorem at the basic_usage
example input: the sensitive key password is redacted at the top level of
the masked mapping, a password entry maps to the redaction token in the
masked entries of a singleton mapping, and a mapping with no sensitive
entry passes through unchanged. -/
theorem JxLogger.masking_redacts_sensitive_fields_witness :
    JxLogger.Value.str JxLogger.redactionToken = .str JxLogger.redactionToken ∧
    ("password", JxLogger.Value.str JxLogger.redactionToken) ∈
      JxLogger.maskEntries JxLogger.basicCfg
        [("password", JxLogger.Value.str "secret123")] ∧
    JxLogger.maskValue JxLogger.basicCfg (.map [("note", .str "hello")]) =
      .map [("note", .str "hello")] := by
  refine ⟨?_, ?_, ?_⟩
  · have h5 := (JxLogger.masking_redacts_sensitive_fields JxLogger.basicCfg).2.2.2.2.1
    have hin : JxLogger.EntryIn
        (JxLogger.maskValue JxLogger.basicCfg JxLogger.basicExtra) "password"
        (.str JxLogger.redactionToken) := by
      rw [h5]
      exact .here (by simp)
    exact (JxLogger.masking_redacts_sensitive_fields JxLogger.basicCfg).1
      JxLogger.basicExtra "password" _ hin (by decide)
  · exact (JxLogger.masking_redacts_sensitive_fields JxLogger.basicCfg).2.1
      [("password", .str "secret123")] "password" (.str "secret123")
      (by simp) (by decide)
  · exact (JxLogger.masking_redacts_sensitive_fields JxLogger.basicCfg).2.2.2.1
      (.map [("note", .str "hello")])
      (by simp +decide [JxLogger.cleanValue, JxLogger.cleanEntries,
        JxLogger.sensitiveKey, JxLogger.sensitiveValue, JxLogger.normalizeKey,
        JxLogger.defaultSensitiveKeys, JxLogger.basicCfg])

namespace JxLogger

/-- Modelled from the spec: a LogContext: a mapping of named fields
(request_id, user_id, component, operation, plus arbitrary additional
keys) to string values. -/
abbrev Ctx := List (String × String)

/-- Modelled from the spec: lookup of a context field by name: the most
recently attached binding of the name is found first. -/
def lookupCtx (c : Ctx) (k : String) : Option String :=
  c.lookup k

/-- Modelled from the spec: the merge of a new context over the active
one: the new context's bindings shadow the active one's, so new keys
win on collision. -/
def mergeCtx (base new : Ctx) : Ctx :=
  new ++ base

/-- Modelled from the spec: the outcome of a guarded operation: normal
return, raised failure, or cancellation mid-flight. -/
inductive Outcome (α : Type) where
  | ok (a : α)
  | raised (e : String)
  | cancelled

/-- Modelled from the spec: scoped_context acquisition: on entry the
guard computes the context active inside the scope (ctx merged over the
currently active context) and saves the prior active context. -/
def scopedEnter (ctx active : Ctx) : Ctx × Ctx :=
  (mergeCtx active ctx, active)

/-- Modelled from the spec: the guard's release: the saved prior context
is restored whatever the context left by the body and the outcome are
(normal return, raised failure, or cancellation). -/
def scopedExit {α : Type} (saved _left : Ctx) (_out : Outcome α) : Ctx :=
  saved

/-- Modelled from the spec: running a body under scoped_context: the body
receives the merged context as the active one (and may itself replace the
active context while running); every exit path goes through the guard's
release. -/
def runScoped {α : Type} (ctx : Ctx) (body : Ctx → Outcome α × Ctx)
    (active : Ctx) : Outcome α × Ctx :=
  let p := scopedEnter ctx active
  let res := body p.1
  (res.1, scopedExit p.2 res.2 res.1)

theorem lookupCtx_mergeCtx (base new : Ctx) (k : String) :
    lookupCtx (mergeCtx base new) k =
      ((lookupCtx new k).orElse fun _ => lookupCtx base k) := by
  induction new with
  | nil => rfl
  | cons p rest ih =>
    by_cases h : k = p.1
    · simp [lookupCtx, mergeCtx, List.lookup, h]
    · have h' : (k == p.1) = false := by simp [h]
      simp only [lookupCtx, mergeCtx, List.cons_append, List.lookup, h'] at ih ⊢
      exact ih

end JxLogger

/-- C3: for every context ctx and previously active context P,
scoped_context attaches ctx merged over P with ctx's keys winning on
collision for the duration of the guard, and on every exit path (normal
return, raised failure, or cancellation) restores P as the active
context, so a sibling call after the scope never observes a key attached
inside the scope. -/
theorem JxLogger.scoped_context_restores_prior {α : Type} (ctx P : JxLogger.Ctx)
    (body : JxLogger.Ctx → JxLogger.Outcome α × JxLogger.Ctx) :
    ((JxLogger.runScoped ctx body P).2 = P) ∧
    (∀ k, JxLogger.lookupCtx (JxLogger.scopedEnter ctx P).1 k =
      ((JxLogger.lookupCtx ctx k).orElse fun _ => JxLogger.lookupCtx P k)) ∧
    (∀ k, JxLogger.lookupCtx (JxLogger.runScoped ctx body P).2 k =
      JxLogger.lookupCtx P k) ∧
    (∀ e : String, ∀ left : JxLogger.Ctx,
      (JxLogger.runScoped (α := α) ctx (fun _ => (.raised e, left)) P).2 = P) ∧
    (∀ left : JxLogger.Ctx,
      (JxLogger.runScoped (α := α) ctx (fun _ => (.cancelled, left)) P).2 = P) := by
  refine ⟨rfl, ?_, fun k => rfl, fun e left => rfl, fun left => rfl⟩
  intro k
  exact JxLogger.lookupCtx_mergeCtx P ctx k

namespace JxLogger

/-- Modelled from the spec: a Record: level, message, merged context
snapshot, extra structured fields, masking-applied flag. -/
structure Record where
  level : Level
  message : String
  context : Ctx
  extra : Value
  maskingApplied : Bool

/-- Modelled from the spec: the state of the async Dispatcher: a bounded,
ordered queue drained by a single background consumer, the sink-side
trace of written records, and the aggregated records-dropped diagnostic. -/
structure AsyncState where
  capacity : Nat
  queue : List Record
  sink : List Record
  dropped : Nat

/-- Modelled from the spec: emit_async pushes the record onto the bounded
queue and returns once enqueued; if the queue is full and the bounded
wait elapses, the record is dropped and the aggregated records-dropped
diagnostic is incremented, the call still returning normally. -/
def emit_async (r : Record) (s : AsyncState) : AsyncState :=
  if s.queue.length < s.capacity then { s with queue := s.queue ++ [r] }
  else { s with dropped := s.dropped + 1 }

/-- Modelled from the spec: one step of the single background consumer:
it takes the oldest queued record and performs the format-and-write of
the sync path. -/
def consumeStep (s : AsyncState) : AsyncState :=
  match s.queue with
  | [] => s
  | r :: rest => { s with queue := rest, sink := s.sink ++ [r] }

/-- Modelled from the spec: the consumer drains the queue strictly in
enqueue order. -/
def drainQueue (sink : List Record) : List Record → List Record
  | [] => sink
  | r :: rest => drainQueue (sink ++ [r]) rest

/-- Modelled from the spec: the drain operation flushes all currently
queued records through the consumer. -/
def drain (s : AsyncState) : AsyncState :=
  { s with queue := [], sink := drainQueue s.sink s.queue }

/-- Sequential emit_async calls from one flow, each completing before the
next begins. -/
def emitAll (rs : List Record) (s : AsyncState) : AsyncState :=
  rs.foldl (fun acc r => emit_async r acc) s

theorem drainQueue_eq (sink q : List Record) :
    drainQueue sink q = sink ++ q := by
  induction q generalizing sink with
  | nil => simp [drainQueue]
  | cons r rest ih => simp [drainQueue, ih]

theorem emitAll_within_capacity (rs : List Record) (s : AsyncState)
    (h : s.queue.length + rs.length ≤ s.capacity) :
    emitAll rs s = { s with queue := s.queue ++ rs } := by
  induction rs generalizing s with
  | nil => simp [emitAll]
  | cons r rest ih =>
    have hlt : s.queue.length < s.capacity := by
      simp only [List.length_cons] at h
      omega
    have step : emit_async r s = { s with queue := s.queue ++ [r] } := by
      simp [emit_async, hlt]
    show emitAll rest (emit_async r s) = _
    rw [step, ih]
    · simp
    · simp only [List.length_append, List.length_cons, List.length_nil]
      simp only [List.length_cons] at h
      omega

theorem drain_consumeStep (s : AsyncState) : drain s = drain (consumeStep s) := by
  cases hq : s.queue with
  | nil => simp [consumeStep, hq]
  | cons r rest =>
    simp [consumeStep, hq, drain, drainQueue_eq]

end JxLogger

/-- C4: N sequential emit_async calls from one flow on one Logger Facade
instance, for N up to the queue's remaining capacity, enqueue their
records in call order, and the single background consumer drains the
queue strictly in enqueue order, so the sink receives all N records in
the same relative order (draining commutes with single consumer steps). -/
theorem JxLogger.async_fifo_ordering (rs : List JxLogger.Record)
    (s : JxLogger.AsyncState)
    (h : s.queue.length + rs.length ≤ s.capacity) :
    (JxLogger.drain (JxLogger.emitAll rs s)).sink = s.sink ++ s.queue ++ rs ∧
    (JxLogger.emitAll rs s).queue = s.queue ++ rs ∧
    (∀ t : JxLogger.AsyncState,
      JxLogger.drain t = JxLogger.drain (JxLogger.consumeStep t)) := by
  refine ⟨?_, ?_, JxLogger.drain_consumeStep⟩
  · rw [JxLogger.emitAll_within_capacity rs s h]
    simp [JxLogger.drain, JxLogger.drainQueue_eq]
  · rw [JxLogger.emitAll_within_capacity rs s h]

/-- Witness for C4: two sequential emit_async calls on an initially empty
queue of capacity four reach the sink in call order after the consumer
drains the queue. -/
theorem JxLogger.async_fifo_ordering_witness :
    (JxLogger.drain (JxLogger.emitAll
        [⟨.info, "first", [], .map [], true⟩, ⟨.info, "second", [], .map [], true⟩]
        ⟨4, [], [], 0⟩)).sink =
      [] ++ [] ++
        [⟨.info, "first", [], .map [], true⟩, ⟨.info, "second", [], .map [], true⟩] :=
  (JxLogger.async_fifo_ordering
    [⟨.info, "first", [], .map [], true⟩, ⟨.info, "second", [], .map [], true⟩]
    ⟨4, [], [], 0⟩ (by decide)).1

namespace JxLogger

/-- Modelled from the spec: the result of a sink write attempt. -/
inductive WriteResult where
  | ok
  | failed (err : String)

/-- Modelled from the spec: the state seen by the sync Dispatcher: the
records written to the sink and the fallback diagnostic channel. -/
structure SyncState where
  written : List Record
  fallbackDiag : List String

/-- Modelled from the spec: the sync Dispatcher emit: a write failure is
caught and reported to the fallback diagnostic channel, never raised to
the caller's business logic; the emission call returns normally in both
cases. -/
def emitSync (write : Record → WriteResult) (r : Record) (s : SyncState) :
    Outcome Unit × SyncState :=
  match write r with
  | .ok => (.ok (), { s with written := s.written ++ [r] })
  | .failed e => (.ok (), { s with fallbackDiag := s.fallbackDiag ++ [e] })

mutual

/-- Whether a value contains, at any nesting depth, a value whose type
cannot be introspected by the Masking Engine. -/
def hasBlob : Value → Bool
  | .blob _ => true
  | .map es => hasBlobEntries es
  | .seq items => hasBlobItems items
  | _ => false
termination_by structural v => v

/-- Occurrence of a non-introspectable value among mapping entries. -/
def hasBlobEntries : List (String × Value) → Bool
  | [] => false
  | (_, v) :: rest => hasBlob v || hasBlobEntries rest
termination_by structural es => es

/-- Occurrence of a non-introspectable value among sequence items. -/
def hasBlobItems : List Value → Bool
  | [] => false
  | v :: rest => hasBlob v || hasBlobItems rest
termination_by structural items => items

end

/-- Modelled from the spec: routing a record through the Masking Engine:
the extra fields are redacted, the masking-applied flag is set, and when
some value could not be introspected the record is annotated as partially
masked for diagnostics rather than dropped. -/
def maskRecord (cfg : MaskConfig) (r : Record) : Record × Bool :=
  ({ r with extra := maskValue cfg r.extra, maskingApplied := true },
   hasBlob r.extra)

/-- Modelled from the spec: masking followed by sync dispatch: the
outcome, the dispatcher state, and the partially-masked annotation. -/
def emitMasked (cfg : MaskConfig) (write : Record → WriteResult)
    (r : Record) (s : SyncState) : Outcome Unit × SyncState × Bool :=
  let m := maskRecord cfg r
  let res := emitSync write m.1 s
  (res.1, res.2, m.2)

end JxLogger

/-- C5: no emission call raises an error to the caller: a sink write
failure is caught and reported to the fallback diagnostic channel with
the call still returning normally; a value that cannot be introspected
leaves the record flagged as partially masked but still emitted, never
dropped; and an async queue-overflow drop increments the aggregated
records-dropped diagnostic, leaves the queue unchanged, and the call
still returns normally. -/
theorem JxLogger.emission_never_fails_caller
    (write : JxLogger.Record → JxLogger.WriteResult)
    (cfg : JxLogger.MaskConfig) (r : JxLogger.Record) (s : JxLogger.SyncState) :
    ((JxLogger.emitSync write r s).1 = .ok ()) ∧
    (∀ e : String, write r = .failed e →
      (JxLogger.emitSync write r s).2 =
        { s with fallbackDiag := s.fallbackDiag ++ [e] }) ∧
    ((JxLogger.emitMasked cfg write r s).1 = .ok ()) ∧
    (JxLogger.hasBlob r.extra = true →
      (JxLogger.emitMasked cfg write r s).2.2 = true) ∧
    (write (JxLogger.maskRecord cfg r).1 = .ok →
      (JxLogger.emitMasked cfg write r s).2.1.written =
        s.written ++ [(JxLogger.maskRecord cfg r).1]) ∧
    (∀ t : JxLogger.AsyncState, ¬ t.queue.length < t.capacity →
      JxLogger.emit_async r t = { t with dropped := t.dropped + 1 }) := by
  refine ⟨?_, ?_, ?_, ?_, ?_, ?_⟩
  · cases hw : write r <;> simp [JxLogger.emitSync, hw]
  · intro e hw
    simp [JxLogger.emitSync, hw]
  · cases hw : write (JxLogger.maskRecord cfg r).1 <;>
      simp [JxLogger.emitMasked, JxLogger.emitSync, hw]
  · intro hb
    simp [JxLogger.emitMasked, JxLogger.maskRecord, hb]
  · intro hw
    simp [JxLogger.emitMasked, JxLogger.emitSync, hw]
  · intro t ht
    simp [JxLogger.emit_async, ht]

/-- Witness for C5: a failing console write is reported to the fallback
diagnostic channel, a record holding a non-introspectable value is
annotated as partially masked, and an emit_async against a zero-capacity
queue increments the records-dropped diagnostic. -/
theorem JxLogger.emission_never_fails_caller_witness :
    (JxLogger.emitSync (fun _ => .failed "console write failure")
        ⟨.info, "m", [], .map [], false⟩ ⟨[], []⟩).2 =
      { written := [], fallbackDiag := [] ++ ["console write failure"] } ∧
    (JxLogger.emitMasked JxLogger.basicCfg (fun _ => .ok)
        ⟨.info, "m", [], .blob "socket", false⟩ ⟨[], []⟩).2.2 = true ∧
    JxLogger.emit_async ⟨.info, "m", [], .map [], false⟩ ⟨0, [], [], 7⟩ =
      { capacity := 0, queue := [], sink := [], dropped := 7 + 1 } := by
  refine ⟨?_, ?_, ?_⟩
  · exact (JxLogger.emission_never_fails_caller
      (fun _ => .failed "console write failure") JxLogger.basicCfg
      ⟨.info, "m", [], .map [], false⟩ ⟨[], []⟩).2.1 "console write failure" rfl
  · exact (JxLogger.emission_never_fails_caller (fun _ => .ok) JxLogger.basicCfg
      ⟨.info, "m", [], .blob "socket", false⟩ ⟨[], []⟩).2.2.2.1 (by decide)
  · exact (JxLogger.emission_never_fails_caller (fun _ => .ok) JxLogger.basicCfg
      ⟨.info, "m", [], .map [], false⟩ ⟨[], []⟩).2.2.2.2.2
      ⟨0, [], [], 7⟩ (by decide)

namespace JxLogger

/-- Modelled from the spec: the PerformanceCounters owned exclusively by
one Performance Monitor instance per Logger Facade: per-level emission
counts and the total count. -/
structure PerfCounters where
  counts : Level → Nat
  total : Nat

/-- Modelled from the spec: the counters at Logger Facade construction
time. -/
def initCounters : PerfCounters := ⟨fun _ => 0, 0⟩

/-- Modelled from the spec: record_emission(level) increments the
per-level and total counters on each successful emission. -/
def record_emission (l : Level) (c : PerfCounters) : PerfCounters :=
  { counts := fun u => if u = l then c.counts u + 1 else c.counts u,
    total := c.total + 1 }

/-- The sum of the per-level counts over the seven registered levels. -/
def sumCounts (c : PerfCounters) : Nat :=
  (allLevels.map c.counts).sum

/-- Modelled from the spec: the lower bound on the elapsed seconds used
by get_stats to avoid division by zero. -/
def epsilon : ℚ := 1 / 1000000

/-- Modelled from the spec: the stats mapping returned by get_stats:
total_logs, logs_per_second, log_counts_by_level. -/
structure PerfStats where
  total_logs : Nat
  logs_per_second : ℚ
  log_counts_by_level : List (Level × Nat)
deriving DecidableEq, Repr

/-- Modelled from the spec: get_stats computes logs-per-second as
total / max(elapsed_seconds, epsilon) since the Logger Facade's
construction time. -/
def get_stats (c : PerfCounters) (elapsed : ℚ) : PerfStats :=
  { total_logs := c.total,
    logs_per_second := (c.total : ℚ) / max elapsed epsilon,
    log_counts_by_level := allLevels.map (fun l => (l, c.counts l)) }

/-- The counters after a sequence of successful emissions starting from
construction. -/
def runEmissions (ls : List Level) : PerfCounters :=
  ls.foldl (fun acc l => record_emission l acc) initCounters

theorem sumCounts_record (l : Level) (c : PerfCounters) :
    sumCounts (record_emission l c) = sumCounts c + 1 := by
  cases l <;> simp [sumCounts, allLevels, record_emission] <;> omega

theorem foldl_counters (ls : List Level) (c0 : PerfCounters) :
    (ls.foldl (fun acc l => record_emission l acc) c0).total
        = c0.total + ls.length ∧
      sumCounts (ls.foldl (fun acc l => record_emission l acc) c0)
        = sumCounts c0 + ls.length := by
  induction ls generalizing c0 with
  | nil => simp
  | cons l rest ih =>
    simp only [List.foldl_cons, List.length_cons]
    obtain ⟨h1, h2⟩ := ih (record_emission l c0)
    refine ⟨?_, ?_⟩
    · rw [h1]
      simp only [record_emission]
      omega
    · rw [h2, sumCounts_record]
      omega

end JxLogger

/-- C6: the Performance Monitor's per-level counts always sum to its
total count: after any sequence of M successful emissions from
construction, get_stats reports total_logs = M, the per-level counts sum
to M, and logs_per_second equals the total divided by the elapsed seconds
since construction, the elapsed time being bounded below by epsilon. -/
theorem JxLogger.performance_counters_consistent (ls : List JxLogger.Level)
    (elapsed : ℚ) :
    (JxLogger.sumCounts (JxLogger.runEmissions ls)
      = (JxLogger.runEmissions ls).total) ∧
    ((JxLogger.runEmissions ls).total = ls.length) ∧
    ((JxLogger.get_stats (JxLogger.runEmissions ls) elapsed).total_logs
      = ls.length) ∧
    (((JxLogger.get_stats (JxLogger.runEmissions ls) elapsed).log_counts_by_level.map
        Prod.snd).sum = ls.length) ∧
    ((JxLogger.get_stats (JxLogger.runEmissions ls) elapsed).logs_per_second
      = (ls.length : ℚ) / max elapsed JxLogger.epsilon) := by
  obtain ⟨h1, h2⟩ := JxLogger.foldl_counters ls JxLogger.initCounters
  have htot : (JxLogger.runEmissions ls).total = ls.length := by
    rw [JxLogger.runEmissions, h1]
    simp [JxLogger.initCounters]
  have hsum : JxLogger.sumCounts (JxLogger.runEmissions ls) = ls.length := by
    rw [JxLogger.runEmissions, h2]
    simp [JxLogger.sumCounts, JxLogger.initCounters, JxLogger.allLevels]
  refine ⟨by rw [hsum, htot], htot, by simp [JxLogger.get_stats, htot], ?_, ?_⟩
  · have : ((JxLogger.get_stats (JxLogger.runEmissions ls)
        elapsed).log_counts_by_level.map Prod.snd).sum
        = JxLogger.sumCounts (JxLogger.runEmissions ls) := by
      simp [JxLogger.get_stats, JxLogger.sumCounts, List.map_map]
      rfl
    rw [this, hsum]
  · simp [JxLogger.get_stats, htot]

namespace JxLogger

/-- Modelled from the spec: LoggerConfig: name, chosen output format,
minimum level threshold, console-output flag, async-mode flag,
masking-enabled flag, performance-monitoring-enabled flag; immutable
after the Logger Facade is constructed. -/
structure LoggerConfig where
  name : String
  log_format : String
  level : Level
  console_output : Bool
  async_logging : Bool
  mask_sensitive_data : Bool
  enable_performance_monitoring : Bool
deriving DecidableEq, Repr

/-- Modelled from the spec: the process-wide name-keyed Logger Facade
registry: names mapped to instance identities, and each instance's
configuration as fixed at its construction. -/
structure Registry where
  byName : List (String × Nat)
  configs : List (Nat × LoggerConfig)
  nextId : Nat
deriving DecidableEq, Repr

/-- Modelled from the spec: the registry initialized empty at process
start. -/
def emptyRegistry : Registry := ⟨[], [], 0⟩

/-- Modelled from the spec: get_logger: an identical name returns the
existing singleton instance, the configuration supplied on the subsequent
call being ignored; a new name constructs an instance whose configuration
is fixed at construction. -/
def get_logger (name : String) (cfg : LoggerConfig) (reg : Registry) :
    Nat × Registry :=
  match reg.byName.lookup name with
  | some id => (id, reg)
  | none =>
    (reg.nextId,
     { byName := (name, reg.nextId) :: reg.byName,
       configs := (reg.nextId, cfg) :: reg.configs,
       nextId := reg.nextId + 1 })

end JxLogger

/-- C7: for every name, a second get_logger call with the same name
returns the same underlying instance regardless of any differing
configuration on the second call, leaves the registry unchanged, and the
instance's stored configuration stays the one fixed at construction. -/
theorem JxLogger.get_logger_singleton (name : String)
    (cfg1 cfg2 : JxLogger.LoggerConfig) (reg : JxLogger.Registry) :
    ((JxLogger.get_logger name cfg2
        (JxLogger.get_logger name cfg1 reg).2).1
      = (JxLogger.get_logger name cfg1 reg).1) ∧
    ((JxLogger.get_logger name cfg2
        (JxLogger.get_logger name cfg1 reg).2).2
      = (JxLogger.get_logger name cfg1 reg).2) ∧
    (reg.byName.lookup name = none →
      ((JxLogger.get_logger name cfg1 reg).2.configs.lookup
          (JxLogger.get_logger name cfg1 reg).1 = some cfg1)) := by
  cases h : reg.byName.lookup name with
  | some id =>
    refine ⟨?_, ?_, ?_⟩ <;> simp [JxLogger.get_logger, h]
  | none =>
    refine ⟨?_, ?_, ?_⟩ <;>
      simp [JxLogger.get_logger, h, List.lookup]

/-- Witness for C7: retrieving the name svc twice from the empty registry
with two configurations differing in level and async mode yields the same
instance identity, an unchanged registry, and the first configuration
stored. -/
theorem JxLogger.get_logger_singleton_witness :
    (JxLogger.get_logger "svc"
        ⟨"svc", "plain", .error, false, true, false, false⟩
        (JxLogger.get_logger "svc"
          ⟨"svc", "rich", .debug, true, false, true, true⟩
          JxLogger.emptyRegistry).2).1
      = (JxLogger.get_logger "svc"
          ⟨"svc", "rich", .debug, true, false, true, true⟩
          JxLogger.emptyRegistry).1 ∧
    (JxLogger.get_logger "svc"
        ⟨"svc", "rich", .debug, true, false, true, true⟩
        JxLogger.emptyRegistry).2.configs.lookup
      (JxLogger.get_logger "svc"
        ⟨"svc", "rich", .debug, true, false, true, true⟩
        JxLogger.emptyRegistry).1 = some ⟨"svc", "rich", .debug, true, false, true, true⟩ :=
  ⟨(JxLogger.get_logger_singleton "svc"
      ⟨"svc", "rich", .debug, true, false, true, true⟩
      ⟨"svc", "plain", .error, false, true, false, false⟩
      JxLogger.emptyRegistry).1,
   (JxLogger.get_logger_singleton "svc"
      ⟨"svc", "rich", .debug, true, false, true, true⟩
      ⟨"svc", "plain", .error, false, true, false, false⟩
      JxLogger.emptyRegistry).2.2 rfl⟩

namespace JxLogger

/-- Modelled from the spec: the registered (lowercase) name of each
level. -/
def levelName : Level → String
  | .trace => "trace"
  | .debug => "debug"
  | .info => "info"
  | .success => "success"
  | .warning => "warning"
  | .error => "error"
  | .critical => "critical"

/-- The uppercase spelling of a level name, as the example scripts pass
it to get_logger. -/
def upperName (l : Level) : String :=
  String.mk ((levelName l).data.map Char.toUpper)

/-- Modelled from the spec: the Level Registry lookup behind get_logger's
level option, failing with UnknownLevel on an unregistered name; the
examples construct loggers with the uppercase names DEBUG and INFO while
the registered names are lowercase, so the supplied name is normalized
case-insensitively before the lookup. -/
def resolveLevel (s : String) : Except String Level :=
  match (allLevels.map (fun l => (levelName l, l))).lookup (normalizeKey s) with
  | some l => .ok l
  | none => .error "UnknownLevel"

/-- Modelled from the spec: fixing a construction-time configuration's
threshold from the level name supplied to get_logger. -/
def configWithLevel (levelStr : String) (cfg : LoggerConfig) :
    Except String LoggerConfig :=
  (resolveLevel levelStr).map (fun l => { cfg with level := l })

end JxLogger

/-- C9: get_logger accepts the level threshold in either case: for every
registered level, both the lowercase registered name and its uppercase
spelling resolve to that level instead of failing with UnknownLevel, so
construction with DEBUG or INFO succeeds with the corresponding
threshold. -/
theorem JxLogger.level_name_case_insensitive (l : JxLogger.Level)
    (cfg : JxLogger.LoggerConfig) :
    (JxLogger.resolveLevel (JxLogger.levelName l) = .ok l) ∧
    (JxLogger.resolveLevel (JxLogger.upperName l) = .ok l) ∧
    (JxLogger.configWithLevel (JxLogger.upperName l) cfg
      = .ok { cfg with level := l }) ∧
    (JxLogger.resolveLevel "DEBUG" = .ok .debug) ∧
    (JxLogger.resolveLevel "INFO" = .ok .info) := by
  have hupper : ∀ u : JxLogger.Level,
      JxLogger.resolveLevel (JxLogger.upperName u) = .ok u := by
    intro u; cases u <;> rfl
  refine ⟨?_, hupper l, ?_, by rfl, by rfl⟩
  · cases l <;> rfl
  · rw [JxLogger.configWithLevel, hupper l]
    rfl

namespace JxLogger

/-- Modelled from the spec and the examples: get_performance_stats
returns the stats mapping only when performance monitoring is enabled by
the facade's configuration; when disabled it returns the falsy None,
which the example scripts guard with a truthiness test before indexing
total_logs, logs_per_second or log_counts_by_level; the configuration's
enable_performance_monitoring flag is the facade attribute read for the
same guard. -/
def get_performance_stats (cfg : LoggerConfig) (c : PerfCounters)
    (elapsed : ℚ) : Option PerfStats :=
  if cfg.enable_performance_monitoring then some (get_stats c elapsed)
  else none

end JxLogger

/-- C10: get_performance_stats may return the falsy None instead of a
stats mapping, exactly when performance monitooring is disabled, so a
caller must test the result before indexing it; the result is present iff
the facade's readable enable_performance_monitoring flag is set, and when
present it is the get_stats mapping. -/
theorem JxLogger.performance_stats_optional (cfg : JxLogger.LoggerConfig)
    (c : JxLogger.PerfCounters) (elapsed : ℚ) :
    ((JxLogger.get_performance_stats cfg c elapsed).isSome
      = cfg.enable_performance_monitoring) ∧
    (cfg.enable_performance_monitoring = false →
      JxLogger.get_performance_stats cfg c elapsed = none) ∧
    (cfg.enable_performance_monitoring = true →
      JxLogger.get_performance_stats cfg c elapsed
        = some (JxLogger.get_stats c elapsed)) := by
  refine ⟨?_, ?_, ?_⟩ <;>
    cases h : cfg.enable_performance_monitoring <;>
    simp [JxLogger.get_performance_stats, h]

/-- Witness for C10: with monitoring disabled the stats call returns
None; with it enabled the call returns the stats mapping. -/
theorem JxLogger.performance_stats_optional_witness :
    JxLogger.get_performance_stats
        ⟨"svc", "plain", .info, true, false, true, false⟩
        JxLogger.initCounters 1 = none ∧
    JxLogger.get_performance_stats
        ⟨"svc", "plain", .info, true, false, true, true⟩
        JxLogger.initCounters 1
      = some (JxLogger.get_stats JxLogger.initCounters 1) :=
  ⟨(JxLogger.performance_stats_optional
      ⟨"svc", "plain", .info, true, false, true, false⟩
      JxLogger.initCounters 1).2.1 rfl,
   (JxLogger.performance_stats_optional
      ⟨"svc", "plain", .info, true, false, true, true⟩
      JxLogger.initCounters 1).2.2 rfl⟩

namespace JxLogger

/-- Modelled from the spec: flow-local context storage: each independent
logical flow (thread, or task in the async scheduler) has its own
active-context slot; flows are named by identifiers. -/
def FlowCtx := Nat → Ctx

/-- Modelled from the spec: the engine operations of the flows as the
scheduler interleaves them: attaching a context in a flow, and the
suspension, resumption and emission points of a flow, which read but
never write any flow's slot. -/
inductive FlowAction where
  | setCtx (f : Nat) (c : Ctx)
  | suspend (f : Nat)
  | resume (f : Nat)
  | emit (f : Nat)

/-- The flow an action belongs to. -/
def FlowAction.flow : FlowAction → Nat
  | .setCtx f _ => f
  | .suspend f => f
  | .resume f => f
  | .emit f => f

/-- Modelled from the spec: the effect of one scheduled action on the
flow-local storage: set_context replaces the active context of its own
flow only; suspension, resumption and emission leave every slot
untouched. -/
def applyAction (s : FlowCtx) : FlowAction → FlowCtx
  | .setCtx f c => fun g => if g = f then c else s g
  | .suspend _ => s
  | .resume _ => s
  | .emit _ => s

/-- Interleaved execution of a schedule of actions. -/
def runActions (s : FlowCtx) (acts : List FlowAction) : FlowCtx :=
  acts.foldl applyAction s

theorem applyAction_other (s : FlowCtx) (a : FlowAction) (g : Nat)
    (h : g ≠ a.flow) : applyAction s a g = s g := by
  cases a with
  | setCtx f c =>
    simp only [FlowAction.flow] at h
    simp [applyAction, h]
  | suspend f => rfl
  | resume f => rfl
  | emit f => rfl

end JxLogger

/-- C8: each logical flow observes only its own active context: attaching
a context in one flow is invisible to every other flow, and a context
attached before a suspension point is still the active context of that
flow after any schedule of actions belonging to other flows runs, without
the flow re-attaching it. -/
theorem JxLogger.flow_local_context_isolation (s : JxLogger.FlowCtx)
    (f : Nat) (c : JxLogger.Ctx) :
    (JxLogger.applyAction s (.setCtx f c) f = c) ∧
    (∀ g : Nat, g ≠ f → JxLogger.applyAction s (.setCtx f c) g = s g) ∧
    (∀ acts : List JxLogger.FlowAction,
      (∀ a ∈ acts, a.flow ≠ f) →
      JxLogger.runActions (JxLogger.applyAction s (.setCtx f c)) acts f = c) := by
  refine ⟨by simp [JxLogger.applyAction], ?_, ?_⟩
  · intro g hg
    simp [JxLogger.applyAction, hg]
  · intro acts hacts
    have key : ∀ t : JxLogger.FlowCtx, ∀ as : List JxLogger.FlowAction,
        (∀ a ∈ as, a.flow ≠ f) → JxLogger.runActions t as f = t f := by
      intro t as
      induction as generalizing t with
      | nil => intro _; rfl
      | cons a rest ih =>
        intro h
        show JxLogger.runActions (JxLogger.applyAction t a) rest f = t f
        rw [ih (JxLogger.applyAction t a) (fun x hx => h x (List.mem_cons_of_mem a hx))]
        exact JxLogger.applyAction_other t a f
          (fun hf => h a (List.mem_cons_self a rest) hf.symm)
    rw [key _ acts hacts]
    simp [JxLogger.applyAction]

/-- Witness for C8: a context attached in flow 0 survives a schedule in
which flow 1 attaches its own context, suspends and resumes, and flow 1's
attachment is invisible to flow 0. -/
theorem JxLogger.flow_local_context_isolation_witness :
    (JxLogger.applyAction (fun _ => [])
        (.setCtx 0 [("component", "auth")]) 1 = (fun _ => ([] : JxLogger.Ctx)) 1) ∧
    (JxLogger.runActions
        (JxLogger.applyAction (fun _ => []) (.setCtx 0 [("component", "auth")]))
        [.setCtx 1 [("component", "db")], .suspend 1, .resume 1] 0
      = [("component", "auth")]) :=
  ⟨(JxLogger.flow_local_context_isolation (fun _ => []) 0
      [("component", "auth")]).2.1 1 (by decide),
   (JxLogger.flow_local_context_isolation (fun _ => []) 0
      [("component", "auth")]).2.2
      [.setCtx 1 [("component", "db")], .suspend 1, .resume 1]
      (by decide)⟩
